import Mathlib

/-!
Verification of the financial projection engine of the fire-calculator
repository (src/unnamed/part_000 and src/src/App.tsx), shallowly embedded
over exact rational arithmetic (`ℚ` in place of JS floating point, `ℤ` for
the horizon parameter `N`).  The four engine functions
`requiredPrincipalByFormula`, `simulateCashflow`, `simulateUntilDepleted` and
`simulateCompound`, and the CSV builder `buildCSV`, are translated
line-by-line from the source.
-/

namespace FireCalc

/-- Cash-flow timing convention: the source's `timing` strings `"end"` and
`"begin"`. -/
inductive Timing where
  | atEnd   : Timing
  | atBegin : Timing
deriving DecidableEq, Repr

/-- Projection record `{ year, expense, growth, endPrincipal }` emitted once
per simulated period. -/
structure Record where
  year : ℕ
  expense : ℚ
  growth : ℚ
  endPrincipal : ℚ
deriving DecidableEq, Repr

/-- `requiredPrincipalByFormula({firstWithdrawal, r, g, N, timing})` from the
source (part_000 lines 37-48, identical in App.tsx lines 31-42):

    if (N <= 0) return 0;
    let pv;
    if (Math.abs(r - g) < 1e-9) {
      pv = (firstWithdrawal * N) / (1 + r);
    } else {
      const ratio = Math.pow((1 + g) / (1 + r), N);
      pv = (firstWithdrawal * (1 - ratio)) / (r - g);
    }
    if (timing === "begin") pv *= 1 + r;
    return Math.max(0, pv);

`N` is an integer here; `Math.pow(base, N)` for `N > 0` is `base ^ N.toNat`. -/
def requiredPrincipalByFormula (firstWithdrawal r g : ℚ) (N : ℤ) (timing : Timing) : ℚ :=
  if N ≤ 0 then 0
  else
    let pv :=
      if |r - g| < 1e-9 then
        (firstWithdrawal * N) / (1 + r)
      else
        let ratio := ((1 + g) / (1 + r)) ^ N.toNat
        (firstWithdrawal * (1 - ratio)) / (r - g)
    let pv := if timing = Timing.atBegin then pv * (1 + r) else pv
    max 0 pv

/-- The shared per-period update of `simulateCashflow` and
`simulateUntilDepleted` (their loop bodies are textually identical in the
source).  Given the 1-based period index `y` and the current principal,
returns `(expense, growth, new principal)`:

    const expense = expense0 * Math.pow(1 + g, y - 1);
    let growth;
    if (timing === "end") {
      growth = principal * r;
      principal = principal + growth - expense;
    } else {
      principal = principal - expense;
      growth = principal * r;
      principal = principal + growth;
    } -/
def periodUpdate (expense0 r g : ℚ) (timing : Timing) (y : ℕ) (principal : ℚ) :
    ℚ × ℚ × ℚ :=
  let expense := expense0 * (1 + g) ^ (y - 1)
  match timing with
  | Timing.atEnd =>
      let growth := principal * r
      (expense, growth, principal + growth - expense)
  | Timing.atBegin =>
      let principal1 := principal - expense
      let growth := principal1 * r
      (expense, growth, principal1 + growth)

/-- Tail of `simulateCashflow`'s loop: `k` iterations remain, the next period
index is `y`, the running principal is `principal`. -/
def simulateCashflowFrom (expense0 r g : ℚ) (timing : Timing) :
    ℕ → ℕ → ℚ → List Record
  | 0, _, _ => []
  | Nat.succ k, y, principal =>
      let u := periodUpdate expense0 r g timing y principal
      ⟨y, u.1, u.2.1, u.2.2⟩ ::
        simulateCashflowFrom expense0 r g timing k (y + 1) u.2.2

/-- `simulateCashflow({initialPrincipal, years, expense0, r, g, timing})`
(part_000 lines 50-67): the fixed-horizon simulator, looping `y = 1 .. years`
and emitting `{year: y, expense, growth, endPrincipal}` each period. -/
def simulateCashflow (initialPrincipal : ℚ) (years : ℕ) (expense0 r g : ℚ)
    (timing : Timing) : List Record :=
  simulateCashflowFrom expense0 r g timing years 1 initialPrincipal

/-- Loop of `simulateUntilDepleted`: the source iterates
`while (y < maxYears && principal > 0)` starting from `y = 0`; here `fuel`
is the remaining iteration budget `maxYears - y`, so `y < maxYears` is
`fuel ≠ 0`, and `y` is the number of periods already emitted. -/
def simulateUntilDepletedGo (expense0 r g : ℚ) (timing : Timing) :
    ℕ → ℕ → ℚ → List Record
  | 0, _, _ => []
  | Nat.succ fuel, y, principal =>
      if 0 < principal then
        let y1 := y + 1
        let u := periodUpdate expense0 r g timing y1 principal
        ⟨y1, u.1, u.2.1, u.2.2⟩ ::
          simulateUntilDepletedGo expense0 r g timing fuel y1 u.2.2
      else []

/-- `simulateUntilDepleted({initialPrincipal, expense0, r, g, timing,
maxYears = 200})` (part_000 lines 69-88, identical in App.tsx lines 63-82):
run-to-depletion simulation, at most `maxYears` periods, stopping as soon as
the principal is no longer `> 0`. -/
def simulateUntilDepleted (initialPrincipal expense0 r g : ℚ) (timing : Timing)
    (maxYears : ℕ := 200) : List Record :=
  simulateUntilDepletedGo expense0 r g timing maxYears 0 initialPrincipal

/-- The inner monthly loop of `simulateCompound`: `n` applications of
`balance = balance * (1 + monthlyRate) + monthly` (the source runs it with
`n = 12` per year). -/
def compoundMonths (monthlyRate monthly : ℚ) : ℕ → ℚ → ℚ
  | 0, balance => balance
  | Nat.succ n, balance =>
      compoundMonths monthlyRate monthly n (balance * (1 + monthlyRate) + monthly)

/-- Yearly loop of `simulateCompound`: `k` years remain, `y` is the next year
index, `balance` the running balance. -/
def simulateCompoundGo (monthlyRate monthly : ℚ) : ℕ → ℕ → ℚ → List Record
  | 0, _, _ => []
  | Nat.succ k, y, balance =>
      let balance1 := compoundMonths monthlyRate monthly 12 balance
      ⟨y, 0, balance1, balance1⟩ ::
        simulateCompoundGo monthlyRate monthly k (y + 1) balance1

/-- `simulateCompound({years, principal0, monthly, r})` (part_000 lines
90-101): for each of `years` years apply 12 monthly compounding steps at rate
`r / 12`, then emit `{year, expense: 0, growth: balance, endPrincipal:
balance}`. -/
def simulateCompound (years : ℕ) (principal0 monthly r : ℚ) : List Record :=
  simulateCompoundGo (r / 12) monthly years 1 principal0

/-- `requiredPrincipalByFormula` with every division of the source checked:
the result is `none` exactly when a JS division by zero would occur (the
floating-point evaluation then produces a non-finite value).  The division by
`1 + r` appears in the near-equal branch, inside `ratio` in the general
branch; the division by `r - g` closes the general branch. -/
def requiredPrincipalByFormulaChecked (firstWithdrawal r g : ℚ) (N : ℤ)
    (timing : Timing) : Option ℚ :=
  if N ≤ 0 then some 0
  else
    let pv? : Option ℚ :=
      if |r - g| < 1e-9 then
        if 1 + r = 0 then none
        else some ((firstWithdrawal * N) / (1 + r))
      else
        if 1 + r = 0 then none
        else if r - g = 0 then none
        else
          let ratio := ((1 + g) / (1 + r)) ^ N.toNat
          some ((firstWithdrawal * (1 - ratio)) / (r - g))
    pv?.map (fun pv =>
      max 0 (if timing = Timing.atBegin then pv * (1 + r) else pv))

/-- A CSV cell: the engine's export rows hold JS strings and numbers; the
numbers exported are whole units, so integer cells model them exactly
(`toString (n : ℤ)` agrees with JS number stringification on integers). -/
inductive Cell where
  | str : String → Cell
  | num : ℤ → Cell
deriving DecidableEq, Repr

/-- `String(c).replace(/"/g, '""')`: every `"` character is replaced by two
`"` characters (written structurally over the character list so that it
computes by kernel reduction). -/
def escapeQuotes (s : String) : String :=
  ⟨s.data.foldr (fun c acc => (if c = '\"' then ['\"', '\"'] else [c]) ++ acc) []⟩

/-- Non-header cell serialization from `buildCSV`'s `process`:
`typeof c === "string" ? `"${String(c).replace(/"/g, '""')}"` : c`. -/
def processCell : Cell → String
  | Cell.str s => "\"" ++ escapeQuotes s ++ "\""
  | Cell.num n => toString n

/-- Header cell serialization from `buildCSV`: `` (h) => `"${h}"` `` —
template interpolation wraps the cell in quotes verbatim, with no doubling of
internal quotes, and quotes numeric headers too. -/
def headerCell : Cell → String
  | Cell.str s => "\"" ++ s ++ "\""
  | Cell.num n => "\"" ++ toString n ++ "\""

/-- `buildCSV(rows)` from part_000 lines 20-24:

    if (!rows || !rows.length) return "";
    const process = (r) => r.map((c) => (typeof c === "string" ?
      `"${String(c).replace(/"/g, '""')}"` : c)).join(",");
    return [rows[0].map((h) => `"${h}"`).join(","),
      ...rows.slice(1).map(process)].join("\n");

(a `null`/`undefined` `rows` argument is not representable in the typed
embedding; the empty list covers `!rows.length`). -/
def buildCSV : List (List Cell) → String
  | [] => ""
  | hdr :: rest =>
      String.intercalate "\n"
        (String.intercalate "," (hdr.map headerCell) ::
          rest.map (fun r => String.intercalate "," (r.map processCell)))

/-- Split a character list at newline characters (the segments between
`'\n'` separators, as JS `s.split("\n")` produces them). -/
def splitNewlines : List Char → List (List Char)
  | [] => [[]]
  | c :: cs =>
      match splitNewlines cs with
      | [] => [[]]
      | l :: ls => if c = '\n' then [] :: l :: ls else (c :: l) :: ls

/-- The newline-separated lines of a string. -/
def linesOf (s : String) : List String :=
  (splitNewlines s.data).map (fun l => ⟨l⟩)

/-- `buildCSV(rows)` from App.tsx lines 15-18: same body but without the
`!rows || !rows.length` guard, so `rows[0].map` on an empty argument throws
(modelled as `none`). -/
def buildCSVApp : List (List Cell) → Option String
  | [] => none
  | hdr :: rest =>
      some (String.intercalate "\n"
        (String.intercalate "," (hdr.map headerCell) ::
          rest.map (fun r => String.intercalate "," (r.map processCell))))

/-! ### Helper lemmas -/

/-- Twelve months of compounding at monthly rate `0` add `12 × monthly`. -/
theorem compoundMonths_zero_rate (monthly : ℚ) :
    ∀ (n : ℕ) (balance : ℚ),
      compoundMonths 0 monthly n balance = balance + n * monthly
  | 0, balance => by simp [compoundMonths]
  | Nat.succ n, balance => by
      rw [compoundMonths, compoundMonths_zero_rate monthly n]
      push_cast
      ring

/-- The principal remaining after running `k` further periods of the shared
recurrence, starting at 1-based period index `y` (the state evolution of
`simulateCashflow`, without the records). -/
def runPrincipal (expense0 r g : ℚ) (t : Timing) : ℕ → ℕ → ℚ → ℚ
  | 0, _, p => p
  | Nat.succ k, y, p =>
      runPrincipal expense0 r g t k (y + 1) (periodUpdate expense0 r g t y p).2.2

/-- The fixed-horizon loop emits one record per remaining period. -/
theorem simulateCashflowFrom_length (expense0 r g : ℚ) (t : Timing) :
    ∀ (k y : ℕ) (p : ℚ), (simulateCashflowFrom expense0 r g t k y p).length = k
  | 0, _, _ => rfl
  | Nat.succ k, y, p => by
      simp only [simulateCashflowFrom, List.length_cons,
        simulateCashflowFrom_length expense0 r g t k (y + 1)]

/-- `getLast?` of a cons with a non-empty tail is `getLast?` of the tail. -/
theorem getLast?_cons_ne_nil {α : Type} (a : α) {l : List α} (h : l ≠ []) :
    (a :: l).getLast? = l.getLast? := by
  cases l with
  | nil => exact absurd rfl h
  | cons b m => exact List.getLast?_cons_cons

/-- The last record of a non-empty fixed-horizon run carries the principal
after all its periods. -/
theorem simulateCashflowFrom_getLast (expense0 r g : ℚ) (t : Timing) :
    ∀ (k y : ℕ) (p : ℚ),
      (simulateCashflowFrom expense0 r g t (k + 1) y p).getLast?.map Record.endPrincipal =
        some (runPrincipal expense0 r g t (k + 1) y p)
  | 0, y, p => by
      simp [simulateCashflowFrom, runPrincipal]
  | Nat.succ k, y, p => by
      have ih := simulateCashflowFrom_getLast expense0 r g t k (y + 1)
        (periodUpdate expense0 r g t y p).2.2
      have hfrom : simulateCashflowFrom expense0 r g t (k + 1) (y + 1)
            (periodUpdate expense0 r g t y p).2.2 =
          ⟨y + 1, (periodUpdate expense0 r g t (y + 1)
              (periodUpdate expense0 r g t y p).2.2).1,
            (periodUpdate expense0 r g t (y + 1)
              (periodUpdate expense0 r g t y p).2.2).2.1,
            (periodUpdate expense0 r g t (y + 1)
              (periodUpdate expense0 r g t y p).2.2).2.2⟩ ::
            simulateCashflowFrom expense0 r g t k (y + 1 + 1)
              (periodUpdate expense0 r g t (y + 1)
                (periodUpdate expense0 r g t y p).2.2).2.2 := by
        simp only [simulateCashflowFrom]
      simp only [simulateCashflowFrom]
      rw [List.getLast?_cons_cons, ← hfrom, ih]
      simp only [runPrincipal]

/-- Closed form of the end-timing recurrence
`principal ← principal + principal*r − expense0*(1+g)^(y−1)`, multiplied
through by `r − g` so that it holds with no side condition. -/
theorem runPrincipal_atEnd (expense0 r g : ℚ) :
    ∀ (k m : ℕ) (p : ℚ),
      (r - g) * runPrincipal expense0 r g Timing.atEnd k (m + 1) p =
        (r - g) * p * (1 + r) ^ k -
          expense0 * (1 + g) ^ m * ((1 + r) ^ k - (1 + g) ^ k)
  | 0, m, p => by
      simp only [runPrincipal, pow_zero]
      ring
  | Nat.succ k, m, p => by
      have ih := runPrincipal_atEnd expense0 r g k (m + 1)
        ((periodUpdate expense0 r g Timing.atEnd (m + 1) p).2.2)
      simp only [runPrincipal]
      rw [ih]
      simp only [periodUpdate, Nat.add_sub_cancel, Nat.succ_eq_add_one]
      ring

/-- Closed form of the begin-timing recurrence
`principal ← (principal − expense0*(1+g)^(y−1)) * (1 + r)`, multiplied
through by `r − g`. -/
theorem runPrincipal_atBegin (expense0 r g : ℚ) :
    ∀ (k m : ℕ) (p : ℚ),
      (r - g) * runPrincipal expense0 r g Timing.atBegin k (m + 1) p =
        (r - g) * p * (1 + r) ^ k -
          expense0 * (1 + g) ^ m * (1 + r) * ((1 + r) ^ k - (1 + g) ^ k)
  | 0, m, p => by
      simp only [runPrincipal, pow_zero]
      ring
  | Nat.succ k, m, p => by
      have ih := runPrincipal_atBegin expense0 r g k (m + 1)
        ((periodUpdate expense0 r g Timing.atBegin (m + 1) p).2.2)
      simp only [runPrincipal]
      rw [ih]
      simp only [periodUpdate, Nat.add_sub_cancel, Nat.succ_eq_add_one]
      ring

/-- The raw growing-annuity present value of the solver's general branch is
non-negative whenever the first withdrawal is non-negative, `1 + r > 0` and
`1 + g ≥ 0` (this is what makes the `Math.max(0, pv)` clamp a no-op). -/
theorem pv_raw_nonneg (W r g : ℚ) (n : ℕ) (hW : 0 ≤ W) (hr : -1 < r)
    (hg : -1 ≤ g) (hne : r ≠ g) :
    0 ≤ W * (1 - ((1 + g) / (1 + r)) ^ n) / (r - g) := by
  have h1r : (0 : ℚ) < 1 + r := by linarith
  have h1g : (0 : ℚ) ≤ 1 + g := by linarith
  rcases lt_or_gt_of_ne hne with hlt | hgt
  · -- r < g: ratio ≥ 1 and r − g < 0
    have hbase : 1 ≤ (1 + g) / (1 + r) := (one_le_div h1r).mpr (by linarith)
    have hratio : 1 ≤ ((1 + g) / (1 + r)) ^ n := one_le_pow₀ hbase
    rw [div_nonneg_iff]
    right
    constructor
    · nlinarith
    · linarith
  · -- g < r: 0 ≤ ratio ≤ 1 and r − g > 0
    have hbase0 : 0 ≤ (1 + g) / (1 + r) := div_nonneg h1g h1r.le
    have hbase1 : (1 + g) / (1 + r) ≤ 1 := (div_le_one h1r).mpr (by linarith)
    have hratio : ((1 + g) / (1 + r)) ^ n ≤ 1 := pow_le_one₀ hbase0 hbase1
    exact div_nonneg (mul_nonneg hW (by linarith)) (by linarith)

/-- The two timing conventions are distinct. -/
theorem atEnd_ne_atBegin : Timing.atEnd ≠ Timing.atBegin :=
  fun h => Timing.noConfusion h

/-- The depletion loop emits at most as many records as it has fuel. -/
theorem simulateUntilDepletedGo_length_le (expense0 r g : ℚ) (t : Timing) :
    ∀ (fuel y : ℕ) (p : ℚ),
      (simulateUntilDepletedGo expense0 r g t fuel y p).length ≤ fuel
  | 0, _, _ => by simp [simulateUntilDepletedGo]
  | Nat.succ fuel, y, p => by
      rw [simulateUntilDepletedGo]
      split
      · simpa using simulateUntilDepletedGo_length_le expense0 r g t fuel (y + 1) _
      · simp

/-- The depletion loop emits nothing when the principal is not positive. -/
theorem simulateUntilDepletedGo_nonpos (expense0 r g : ℚ) (t : Timing)
    (fuel y : ℕ) (p : ℚ) (hp : ¬0 < p) :
    simulateUntilDepletedGo expense0 r g t fuel y p = [] := by
  cases fuel with
  | zero => rfl
  | succ fuel => rw [simulateUntilDepletedGo, if_neg hp]

/-- If the depletion loop emitted anything, its starting principal was
positive. -/
theorem simulateUntilDepletedGo_ne_nil (expense0 r g : ℚ) (t : Timing)
    {fuel y : ℕ} {p : ℚ}
    (h : simulateUntilDepletedGo expense0 r g t fuel y p ≠ []) : 0 < p := by
  by_contra hp
  exact h (simulateUntilDepletedGo_nonpos expense0 r g t fuel y p hp)

/-- Every record of the depletion loop except the last carries a positive
`endPrincipal`: the loop re-checks `principal > 0` before each new period,
so a non-positive balance ends the loop right after its record is pushed. -/
theorem simulateUntilDepletedGo_dropLast_pos (expense0 r g : ℚ) (t : Timing) :
    ∀ (fuel y : ℕ) (p : ℚ),
      ∀ rec ∈ (simulateUntilDepletedGo expense0 r g t fuel y p).dropLast,
        0 < rec.endPrincipal
  | 0, _, _ => by simp [simulateUntilDepletedGo]
  | Nat.succ fuel, y, p => by
      intro rec hrec
      simp only [simulateUntilDepletedGo] at hrec
      by_cases hp : 0 < p
      · rw [if_pos hp] at hrec
        cases hr : simulateUntilDepletedGo expense0 r g t fuel (y + 1)
            (periodUpdate expense0 r g t (y + 1) p).2.2 with
        | nil =>
            rw [hr, List.dropLast_single] at hrec
            exact absurd hrec (List.not_mem_nil rec)
        | cons b l =>
            rw [hr, List.dropLast_cons₂, List.mem_cons] at hrec
            rcases hrec with h1 | h2
            · subst h1
              have hne : simulateUntilDepletedGo expense0 r g t fuel (y + 1)
                  (periodUpdate expense0 r g t (y + 1) p).2.2 ≠ [] := by
                rw [hr]; exact List.cons_ne_nil b l
              simpa using simulateUntilDepletedGo_ne_nil expense0 r g t hne
            · exact simulateUntilDepletedGo_dropLast_pos expense0 r g t fuel (y + 1)
                (periodUpdate expense0 r g t (y + 1) p).2.2 rec (by rw [hr]; exact h2)
      · rw [if_neg hp] at hrec
        simp at hrec

/-- With a non-negative monthly rate and a positive contribution, a month of
compounding does not decrease a non-negative balance. -/
theorem le_compoundMonths (monthlyRate monthly : ℚ)
    (hrate : 0 ≤ monthlyRate) (hm : 0 < monthly) :
    ∀ (n : ℕ) (balance : ℚ), 0 ≤ balance →
      balance ≤ compoundMonths monthlyRate monthly n balance
  | 0, balance, _ => le_of_eq rfl
  | Nat.succ n, balance, hb => by
      have hstep : balance ≤ balance * (1 + monthlyRate) + monthly := by
        nlinarith [mul_nonneg hb hrate]
      have hstep0 : 0 ≤ balance * (1 + monthlyRate) + monthly := le_trans hb hstep
      calc balance ≤ balance * (1 + monthlyRate) + monthly := hstep
        _ ≤ compoundMonths monthlyRate monthly n (balance * (1 + monthlyRate) + monthly) :=
            le_compoundMonths monthlyRate monthly hrate hm n _ hstep0

/-- Year-over-year balances of the accumulation loop are non-decreasing when
they start non-negative, the monthly rate is non-negative and the
contribution is positive. -/
theorem simulateCompoundGo_chain (monthlyRate monthly : ℚ)
    (hrate : 0 ≤ monthlyRate) (hm : 0 < monthly) :
    ∀ (k y : ℕ) (balance : ℚ), 0 ≤ balance →
      List.Chain' (· ≤ ·)
        ((simulateCompoundGo monthlyRate monthly k y balance).map Record.endPrincipal)
  | 0, _, _, _ => by simp [simulateCompoundGo]
  | Nat.succ k, y, balance, hb => by
      simp only [simulateCompoundGo, List.map_cons]
      have hb1 : 0 ≤ compoundMonths monthlyRate monthly 12 balance :=
        le_trans hb (le_compoundMonths monthlyRate monthly hrate hm 12 balance hb)
      rw [List.chain'_cons']
      refine ⟨?_, simulateCompoundGo_chain monthlyRate monthly hrate hm k (y + 1) _ hb1⟩
      intro h hh
      cases k with
      | zero => simp [simulateCompoundGo] at hh
      | succ k =>
          simp only [simulateCompoundGo, List.map_cons, List.head?_cons,
            Option.mem_def, Option.some.injEq] at hh
          rw [← hh]
          exact le_compoundMonths monthlyRate monthly hrate hm 12 _ hb1

end FireCalc

namespace FireCalc

/-! ### Claim theorems -/

/-- **C1 counterexample** — the claim's quantification over *every*
`firstWithdrawal` and *all* rates fails: at `W1 = 100`, `r = -2`, `g = 0`,
`N = 1`, `timing = end` (within the claim's scope since `|r - g| = 2 ≥ 1e-9`
and `N ≥ 1`) the raw present value is `100·(1-(-1))/(-2) = -100`, the
`Math.max(0, pv)` clamp returns `0`, and simulating one period from principal
`0` ends at `-100`, not `0` (exactly, in rational and in floating-point
arithmetic alike). -/
theorem c1_consistency_counterexample :
    (1e-9 : ℚ) ≤ |(-2 : ℚ) - 0| ∧
    ((simulateCashflow (requiredPrincipalByFormula 100 (-2) 0 1 Timing.atEnd)
        1 100 (-2) 0 Timing.atEnd).getLast?).map Record.endPrincipal =
      some (-100) ∧
    (-100 : ℚ) ≠ 0 := by
  refine ⟨by norm_num, ?_, by norm_num⟩
  norm_num [requiredPrincipalByFormula, simulateCashflow, simulateCashflowFrom,
    periodUpdate, if_neg atEnd_ne_atBegin]

/-- **C1 (amended)** — Consistency core law, restricted to the inputs where
the `Math.max(0, pv)` clamp is a no-op: for every `firstWithdrawal ≥ 0`,
rates with `1 + r > 0` and `1 + g ≥ 0` and `|r − g| ≥ 1e-9`, every integer
`N ≥ 1` and both timings, running the fixed-horizon simulator
`simulateCashflow` for `N` periods with
`initialPrincipal = requiredPrincipalByFormula(W1, r, g, N, timing)`,
`expense0 = W1` and the same `r`, `g`, `timing` yields a final record whose
`endPrincipal` equals `0` — exactly, under exact rational arithmetic.  In
particular this holds for `r = 0.07`, `g = 0.03`, `N = 30`, `W1 = 100000`
with both timings (see the witness). -/
theorem c1_consistency_amended (W1 r g : ℚ) (n : ℕ) (t : Timing)
    (hW : 0 ≤ W1) (hr : -1 < r) (hg : -1 ≤ g)
    (hguard : 1e-9 ≤ |r - g|) (hn : 1 ≤ n) :
    ((simulateCashflow (requiredPrincipalByFormula W1 r g (n : ℤ) t)
        n W1 r g t).getLast?).map Record.endPrincipal = some 0 := by
  have h1r : (0 : ℚ) < 1 + r := by linarith
  have habs : (0 : ℚ) < |r - g| := lt_of_lt_of_le (by norm_num) hguard
  have hne : r - g ≠ 0 := abs_pos.mp habs
  have hne' : r ≠ g := sub_ne_zero.mp hne
  have hNpos : ¬((n : ℤ) ≤ 0) := by
    have h1 : (1 : ℤ) ≤ (n : ℤ) := by exact_mod_cast hn
    omega
  have hnotlt : ¬(|r - g| < 1e-9) := not_lt.mpr hguard
  have hpow : ((1 + g) / (1 + r)) ^ n * (1 + r) ^ n = (1 + g) ^ n := by
    rw [div_pow, div_mul_cancel₀]
    exact pow_ne_zero n (ne_of_gt h1r)
  have hpv : 0 ≤ W1 * (1 - ((1 + g) / (1 + r)) ^ n) / (r - g) :=
    pv_raw_nonneg W1 r g n hW hr hg hne'
  obtain ⟨m, rfl⟩ : ∃ m, n = m + 1 := ⟨n - 1, (Nat.succ_pred_eq_of_pos hn).symm⟩
  cases t with
  | atEnd =>
      have hform : requiredPrincipalByFormula W1 r g ((m + 1 : ℕ) : ℤ) Timing.atEnd =
          W1 * (1 - ((1 + g) / (1 + r)) ^ (m + 1)) / (r - g) := by
        simp only [requiredPrincipalByFormula]
        rw [if_neg hNpos, if_neg hnotlt, Int.toNat_natCast,
          if_neg atEnd_ne_atBegin, max_eq_right hpv]
      rw [hform, simulateCashflow, simulateCashflowFrom_getLast, Option.some.injEq]
      have hInv := runPrincipal_atEnd W1 r g (m + 1) 0
        (W1 * (1 - ((1 + g) / (1 + r)) ^ (m + 1)) / (r - g))
      simp only [zero_add, pow_zero, mul_one] at hInv
      have hc : (r - g) * (W1 * (1 - ((1 + g) / (1 + r)) ^ (m + 1)) / (r - g)) =
          W1 * (1 - ((1 + g) / (1 + r)) ^ (m + 1)) := by
        field_simp
        ring
      have hzero : (r - g) * runPrincipal W1 r g Timing.atEnd (m + 1) 1
          (W1 * (1 - ((1 + g) / (1 + r)) ^ (m + 1)) / (r - g)) = 0 := by
        rw [hInv, hc]
        linear_combination (-W1) * hpow
      rcases mul_eq_zero.mp hzero with h | h
      · exact absurd h hne
      · exact h
  | atBegin =>
      have hpvb : 0 ≤ W1 * (1 - ((1 + g) / (1 + r)) ^ (m + 1)) / (r - g) * (1 + r) :=
        mul_nonneg hpv h1r.le
      have hform : requiredPrincipalByFormula W1 r g ((m + 1 : ℕ) : ℤ) Timing.atBegin =
          W1 * (1 - ((1 + g) / (1 + r)) ^ (m + 1)) / (r - g) * (1 + r) := by
        simp only [requiredPrincipalByFormula]
        rw [if_neg hNpos, if_neg hnotlt, Int.toNat_natCast, if_true,
          max_eq_right hpvb]
      rw [hform, simulateCashflow, simulateCashflowFrom_getLast, Option.some.injEq]
      have hInv := runPrincipal_atBegin W1 r g (m + 1) 0
        (W1 * (1 - ((1 + g) / (1 + r)) ^ (m + 1)) / (r - g) * (1 + r))
      simp only [zero_add, pow_zero, mul_one] at hInv
      have hc : (r - g) * (W1 * (1 - ((1 + g) / (1 + r)) ^ (m + 1)) / (r - g) * (1 + r)) =
          W1 * (1 - ((1 + g) / (1 + r)) ^ (m + 1)) * (1 + r) := by
        field_simp
        ring
      have hzero : (r - g) * runPrincipal W1 r g Timing.atBegin (m + 1) 1
          (W1 * (1 - ((1 + g) / (1 + r)) ^ (m + 1)) / (r - g) * (1 + r)) = 0 := by
        rw [hInv, hc]
        linear_combination (-W1 * (1 + r)) * hpow
      rcases mul_eq_zero.mp hzero with h | h
      · exact absurd h hne
      · exact h

/-- Witness for C1 at the spec's concrete inputs: `W1 = 100000`, `r = 0.07`,
`g = 0.03`, `N = 30`, for both timings. -/
theorem c1_consistency_witness :
    (0 : ℚ) ≤ 100000 ∧ (-1 : ℚ) < 7/100 ∧ (-1 : ℚ) ≤ 3/100 ∧
    (1e-9 : ℚ) ≤ |(7 : ℚ)/100 - 3/100| ∧ (1 : ℕ) ≤ 30 ∧
    ((simulateCashflow (requiredPrincipalByFormula 100000 (7/100) (3/100)
        ((30 : ℕ) : ℤ) Timing.atEnd) 30 100000 (7/100) (3/100)
        Timing.atEnd).getLast?).map Record.endPrincipal = some 0 ∧
    ((simulateCashflow (requiredPrincipalByFormula 100000 (7/100) (3/100)
        ((30 : ℕ) : ℤ) Timing.atBegin) 30 100000 (7/100) (3/100)
        Timing.atBegin).getLast?).map Record.endPrincipal = some 0 :=
  ⟨by norm_num, by norm_num, by norm_num, by norm_num [abs_of_pos], by norm_num,
   c1_consistency_amended 100000 (7/100) (3/100) 30 Timing.atEnd
     (by norm_num) (by norm_num) (by norm_num) (by norm_num [abs_of_pos]) (by norm_num),
   c1_consistency_amended 100000 (7/100) (3/100) 30 Timing.atBegin
     (by norm_num) (by norm_num) (by norm_num) (by norm_num [abs_of_pos]) (by norm_num)⟩

/-- **C2** — Non-negativity of the Annuity Solver: for every firstWithdrawal,
rates `r` and `g`, horizon `N` and timing, `requiredPrincipalByFormula`
returns a value `≥ 0` (the source clamps with `Math.max(0, pv)`, and the
`N ≤ 0` fallback returns `0`). -/
theorem c2_solver_nonneg (firstWithdrawal r g : ℚ) (N : ℤ) (timing : Timing) :
    0 ≤ requiredPrincipalByFormula firstWithdrawal r g N timing := by
  unfold requiredPrincipalByFormula
  split
  · exact le_refl 0
  · exact le_max_left 0 _

/-- **C5 counterexample** — the `r ≈ g` guard is *not* the only numerical
hazard: at the finite input `r = -1` (with `g = 0`, so the guard takes the
general branch) the source divides by `1 + r = 0` inside `ratio`; in JS the
result is non-finite (`Math.pow(Infinity, 2) = Infinity` propagates to the
returned value), refuting totality over finite inputs. -/
theorem c5_totality_counterexample :
    requiredPrincipalByFormulaChecked 100 (-1) 0 2 Timing.atEnd = none := by
  norm_num [requiredPrincipalByFormulaChecked]

/-- **C5 (amended)** — Totality of the Annuity Solver over finite inputs
*with `1 + r ≠ 0`*: no division by zero occurs, and the checked evaluation
agrees with the total rational function `requiredPrincipalByFormula` (in
particular a finite value is returned; the `r ≈ g` guard handles the only
other division hazard, `r - g`). -/
theorem c5_totality_amended (firstWithdrawal r g : ℚ) (N : ℤ) (timing : Timing)
    (hr : 1 + r ≠ 0) :
    requiredPrincipalByFormulaChecked firstWithdrawal r g N timing =
      some (requiredPrincipalByFormula firstWithdrawal r g N timing) := by
  unfold requiredPrincipalByFormulaChecked requiredPrincipalByFormula
  by_cases hN : N ≤ 0
  · rw [if_pos hN, if_pos hN]
  · rw [if_neg hN, if_neg hN]
    by_cases hg : |r - g| < 1e-9
    · simp [if_pos hg, hr]
    · have hrg : r - g ≠ 0 := by
        intro h
        rw [h] at hg
        exact hg (by norm_num)
      simp [if_neg hg, hr, hrg]

/-- Witness for C5 at the spec's concrete solver input. -/
theorem c5_totality_amended_witness :
    (1 + (7 : ℚ)/100) ≠ 0 ∧
    requiredPrincipalByFormulaChecked 100000 (7/100) (3/100) 30 Timing.atEnd =
      some (requiredPrincipalByFormula 100000 (7/100) (3/100) 30 Timing.atEnd) :=
  ⟨by norm_num,
   c5_totality_amended 100000 (7/100) (3/100) 30 Timing.atEnd (by norm_num)⟩

/-- **C6** — Horizon fallback: for every horizon `N ≤ 0`,
`requiredPrincipalByFormula` returns exactly `0` (the non-finite-horizon case
of the claim concerns IEEE values that do not exist in the exact rational
embedding; the solver produces no record sequence for any input). -/
theorem c6_horizon_fallback (firstWithdrawal r g : ℚ) (N : ℤ) (timing : Timing)
    (hN : N ≤ 0) :
    requiredPrincipalByFormula firstWithdrawal r g N timing = 0 := by
  unfold requiredPrincipalByFormula
  exact if_pos hN

/-- Witness for C6 at `N = -3`. -/
theorem c6_horizon_fallback_witness :
    (-3 : ℤ) ≤ 0 ∧ requiredPrincipalByFormula 100000 (7/100) (3/100) (-3) Timing.atEnd = 0 :=
  ⟨by decide, c6_horizon_fallback 100000 (7/100) (3/100) (-3) Timing.atEnd (by decide)⟩

/-- **C3** — Run-to-depletion bound and zero-principal boundary: for every
input, `simulateUntilDepleted` produces at most `maxYears` records (the loop
condition `period < maxYears` is checked before each new period), and when
`initialPrincipal ≤ 0` it produces exactly zero records (the `principal > 0`
check also precedes each period). -/
theorem c3_depletion_bound (initialPrincipal expense0 r g : ℚ) (t : Timing)
    (maxYears : ℕ) :
    (simulateUntilDepleted initialPrincipal expense0 r g t maxYears).length ≤ maxYears ∧
    (initialPrincipal ≤ 0 →
      simulateUntilDepleted initialPrincipal expense0 r g t maxYears = []) := by
  constructor
  · exact simulateUntilDepletedGo_length_le expense0 r g t maxYears 0 initialPrincipal
  · intro hp
    exact simulateUntilDepletedGo_nonpos expense0 r g t maxYears 0 initialPrincipal
      (not_lt.mpr hp)

/-- Witness for C3 at the default bound `maxYears = 200` and a non-positive
starting principal. -/
theorem c3_depletion_bound_witness :
    (simulateUntilDepleted (-5) 100 (7/100) (3/100) Timing.atEnd 200).length ≤ 200 ∧
    simulateUntilDepleted (-5) 100 (7/100) (3/100) Timing.atEnd 200 = [] :=
  ⟨(c3_depletion_bound (-5) 100 (7/100) (3/100) Timing.atEnd 200).1,
   (c3_depletion_bound (-5) 100 (7/100) (3/100) Timing.atEnd 200).2 (by norm_num)⟩

/-- **C4** — Run-to-depletion early stop with the depleting record included:
with `initialPrincipal > 0`, every record before the last one has
`endPrincipal > 0`; equivalently, the first period whose post-update
principal is `≤ 0` is the last record emitted (its own `endPrincipal` may be
negative), because the loop re-checks `principal > 0` before each period. -/
theorem c4_depletion_early_stop (initialPrincipal expense0 r g : ℚ) (t : Timing)
    (maxYears : ℕ) (_hp : 0 < initialPrincipal) :
    ∀ rec ∈ (simulateUntilDepleted initialPrincipal expense0 r g t maxYears).dropLast,
      0 < rec.endPrincipal := by
  intro rec hrec
  exact simulateUntilDepletedGo_dropLast_pos expense0 r g t maxYears 0
    initialPrincipal rec hrec

/-- Witness for C4: principal 100, expense 60, zero rates, end timing — the
run is `[40, -20]`, and the only record before the last has a positive
balance. -/
theorem c4_depletion_early_stop_witness :
    (0 : ℚ) < 100 ∧
    ∀ rec ∈ (simulateUntilDepleted 100 60 0 0 Timing.atEnd 200).dropLast,
      0 < rec.endPrincipal :=
  ⟨by norm_num, c4_depletion_early_stop 100 60 0 0 Timing.atEnd 200 (by norm_num)⟩

/-- **C7** — Accumulation linearity at zero rate:
`simulateCompound(years=1, principal0=0, monthly=100, r=0)` returns exactly
one record with `endPrincipal = 1200`, and more generally at `r = 0` a year
of twelve monthly steps (at monthly rate `0/12`, as `simulateCompound`
computes it) adds exactly `12 × monthly` to any balance. -/
theorem c7_zero_rate_linearity :
    simulateCompound 1 0 100 0 = [⟨1, 0, 1200, 1200⟩] ∧
    ∀ (monthly balance : ℚ),
      compoundMonths ((0 : ℚ) / 12) monthly 12 balance = balance + 12 * monthly := by
  constructor
  · norm_num [simulateCompound, simulateCompoundGo, compoundMonths]
  · intro monthly balance
    rw [zero_div, compoundMonths_zero_rate]
    norm_num

/-- **C8 counterexample** — the claim quantifies over *every* `principal0`,
but a negative starting principal shrinks under compounding: with
`principal0 = -4`, `monthly = 1`, `r = 12` (monthly rate `1`, so each month
doubles the balance and adds 1) the yearly balances are
`[-12289, -50331649]`, strictly decreasing, refuting the claimed
non-decreasing `endPrincipal` even though `monthly > 0` and `r ≥ 0`. -/
theorem c8_monotonicity_counterexample :
    ¬ List.Chain' (· ≤ ·)
        ((simulateCompound 2 (-4) 1 12).map Record.endPrincipal) := by
  have h : (simulateCompound 2 (-4) 1 12).map Record.endPrincipal =
      [-12289, -50331649] := by
    norm_num [simulateCompound, simulateCompoundGo, compoundMonths]
  rw [h]
  intro hc
  have := List.chain'_cons.mp hc
  norm_num at this

/-- **C8 (amended)** — Accumulation monotonicity: for every *non-negative*
`principal0`, every `monthly > 0` and `r ≥ 0`, the `endPrincipal` values of
the record sequence returned by `simulateCompound` are non-decreasing from
one year to the next. -/
theorem c8_monotonicity_amended (years : ℕ) (principal0 monthly r : ℚ)
    (hp : 0 ≤ principal0) (hm : 0 < monthly) (hr : 0 ≤ r) :
    List.Chain' (· ≤ ·)
      ((simulateCompound years principal0 monthly r).map Record.endPrincipal) := by
  unfold simulateCompound
  exact simulateCompoundGo_chain (r / 12) monthly
    (div_nonneg hr (by norm_num)) hm years 1 principal0 hp

/-- Witness for C8 at `years = 2`, `principal0 = 1000`, `monthly = 100`,
`r = 0.12`. -/
theorem c8_monotonicity_amended_witness :
    (0 : ℚ) ≤ 1000 ∧ (0 : ℚ) < 100 ∧ (0 : ℚ) ≤ 12/100 ∧
    List.Chain' (· ≤ ·)
      ((simulateCompound 2 1000 100 (12/100)).map Record.endPrincipal) :=
  ⟨by norm_num, by norm_num, by norm_num,
   c8_monotonicity_amended 2 1000 100 (12/100) (by norm_num) (by norm_num) (by norm_num)⟩

/-- **C9 counterexample** — the claim quantifies over *every emitted row*,
but the header row is serialized by plain template interpolation
(`` `"${h}"` ``): a header field containing `q"q` is emitted as `"q"q"`,
without doubling the internal quote, so the output differs from the
`"q""q"` the claim requires. -/
theorem c9_csv_counterexample :
    buildCSV [[Cell.str "q\"q"]] = "\"q\"q\"" ∧
    buildCSV [[Cell.str "q\"q"]] ≠ "\"q\"\"q\"" := by
  refine ⟨rfl, ?_⟩
  intro h
  exact absurd (congrArg String.length h) (by decide)

/-- **C9 (amended)** — CSV serialization contract of `buildCSV`: for the row
list `[["a","b"],[1,2],[3,4]]` the output has exactly 3 newline-separated
lines; in every emitted row *after the header*, each textual field is wrapped
in double quotes with internal double quotes doubled (`x,y` becomes `"x,y"`,
`q"q` becomes `"q""q"`) and each numeric field is emitted unquoted; header
fields are wrapped in double quotes verbatim, with no doubling of internal
quotes. -/
theorem c9_csv_amended :
    (linesOf (buildCSV [[Cell.str "a", Cell.str "b"], [Cell.num 1, Cell.num 2],
        [Cell.num 3, Cell.num 4]])).length = 3 ∧
    buildCSV [[Cell.str "a", Cell.str "b"], [Cell.num 1, Cell.num 2],
        [Cell.num 3, Cell.num 4]] = "\"a\",\"b\"\n1,2\n3,4" ∧
    buildCSV [[Cell.str "h1", Cell.str "h2"], [Cell.str "x,y", Cell.str "q\"q"]] =
      "\"h1\",\"h2\"\n\"x,y\",\"q\"\"q\"" ∧
    buildCSV [[Cell.str "q\"q"], [Cell.num 7]] = "\"q\"q\"\n7" :=
  ⟨rfl, rfl, rfl, rfl⟩

/-- **C10** — Implicit empty-input behavior: the `buildCSV` of
`src/unnamed/part_000` returns the empty string on an empty row list (its
`!rows || !rows.length` guard), while the variant in `src/src/App.tsx` has no
guard and fails there (`rows[0].map` on `undefined`, modelled as `none`); on
every non-empty row list the two variants agree. -/
theorem c10_empty_csv :
    buildCSV [] = "" ∧ buildCSVApp [] = none ∧
    ∀ (hdr : List Cell) (rest : List (List Cell)),
      buildCSVApp (hdr :: rest) = some (buildCSV (hdr :: rest)) :=
  ⟨rfl, rfl, fun _ _ => rfl⟩

end FireCalc
